import Mathlib

/-
Verification of the asynchronous request-orchestration subsystem of
claude-resume (Go).  The Go code is shallowly embedded: goroutine bodies
become pure functions from an explicit environment (query outcome, row
stream, points at which the cancellation context is observed, winners of
nondeterministic select statements) to the list of sends they perform on
their result channel; the executor registry and the TUI model become
explicit state-passing functions; Go maps become association lists.
-/

set_option autoImplicit false

namespace ClaudeResume

/-! ## Association-list helpers (embedding of Go maps) -/

/-- Go map assignment m[k] = v: replace the binding for k if present,
otherwise append a new binding. -/
def mapSet {α : Type} (l : List (String × α)) (k : String) (v : α) :
    List (String × α) :=
  match l with
  | [] => [(k, v)]
  | (k2, v2) :: rest =>
      if k2 = k then (k, v) :: rest else (k2, v2) :: mapSet rest k v

/-- Go map deletion delete(m, k): drop every binding for k. -/
def mapDel {α : Type} (l : List (String × α)) (k : String) :
    List (String × α) :=
  l.filter (fun e => e.1 ≠ k)

/-- Go map lookup m[k]: first binding for k, if any. -/
def mapGet {α : Type} (l : List (String × α)) (k : String) : Option α :=
  match l with
  | [] => none
  | (k2, v2) :: rest => if k2 = k then some v2 else mapGet rest k

/-! ## Data model (pkg/models) -/

/-- models.Project.  LastActivity is kept as the raw timestamp string
returned by the catalog query (sql.NullString); wall-clock parsing and
the time.Now fallback are outside the embedding. -/
structure Project where
  name : String
  path : String
  sessionCount : Nat
  lastActivity : Option String
  deriving DecidableEq, Repr

/-- models.Session, with the same convention for LastActivity. -/
structure Session where
  sessionId : String
  projectPath : String
  lastActivity : Option String
  summary : String
  isResumed : Bool
  deriving DecidableEq, Repr

/-- sessions.LoadingState (part_002 lines 15-25). -/
inductive LoadingState where
  | idle
  | loadingProjects
  | loadingSessions
  | loadingMessages
  | cancelling
  | stateError
  deriving DecidableEq, Repr

/-- Errors crossing the worker/consumer boundary. -/
inductive GoError where
  | contextCanceled
  | deadlineExceeded
  | queryFailed (msg : String)
  deriving DecidableEq, Repr

/-! ## AsyncExecutor registry (part_002, lines 51-207)

The executor state: `contexts` maps a requestID to the cancelled flag of
the context created for it (invoking the cancel handle sets the flag);
`pending` is the buffered requests channel; `closed`, `closeDone` and
`requestsClosed` model the closed flag, the sync.Once guard of Close and
the close of the requests channel. -/

structure AsyncExecutor where
  closed : Bool
  closeDone : Bool
  requestsClosed : Bool
  pending : List String
  contexts : List (String × Bool)
  deriving DecidableEq, Repr

/-- AsyncExecutor.Cancel (part_002 lines 184-193): look the requestID up
under the read lock; if present invoke its cancel handle, otherwise do
nothing. -/
def AsyncExecutor.cancel (e : AsyncExecutor) (requestID : String) :
    AsyncExecutor :=
  match mapGet e.contexts requestID with
  | some _ => { e with contexts := mapSet e.contexts requestID true }
  | none => e

/-- AsyncExecutor.CancelAll (part_002 lines 195-207): snapshot every
registered cancel handle under the read lock, then invoke each one.  No
entry is deleted. -/
def AsyncExecutor.cancelAll (e : AsyncExecutor) : AsyncExecutor :=
  { e with contexts := e.contexts.map (fun p => (p.1, true)) }

/-- AsyncExecutor.Close (part_002 lines 75-87): guarded by closeOnce, so
only the first call sets the closed flag, closes the requests channel and
invokes every registered cancel handle. -/
def AsyncExecutor.close (e : AsyncExecutor) : AsyncExecutor :=
  if e.closeDone then e
  else
    { e with
      closed := true
      requestsClosed := true
      contexts := e.contexts.map (fun p => (p.1, true))
      closeDone := true }

/-- AsyncExecutor.Submit (part_002 lines 158-182).  The fresh uuid is
passed in as freshId; enqueueWins decides the select between the channel
send (buffer has room) and ctx.Done.  Returns the new state and the
requestID handed back to the caller (the empty string when the executor
is closed or the send loses to ctx.Done). -/
def AsyncExecutor.submit (e : AsyncExecutor) (freshId : String)
    (enqueueWins : Bool) : AsyncExecutor × String :=
  if e.closed then (e, "")
  else if enqueueWins then
    ({ e with pending := e.pending ++ [freshId] }, freshId)
  else (e, "")

/-! ## Request lifecycle (part_002: Submit lines 158-182, processRequests
lines 89-94, handleRequest lines 96-156)

Submit only enqueues the request on the buffered requests channel; the
single processRequests goroutine dequeues one request at a time and runs
handleRequest on it.  handleRequest registers the cancel handle as its
first action and deletes it in a defer, so the deletion runs exactly once
whether the query completed, failed or was cancelled.  The small-step
model: `startHandle` dequeues the next pending request and registers it,
`finishHandle` unregisters the in-flight request and marks it handled
(covering delivery, error and observed-cancellation alike). -/

structure ExecTraceState where
  pending : List String
  inFlight : Option String
  contexts : List (String × Bool)
  submitted : List String
  handled : List String
  deriving DecidableEq, Repr

inductive ExecEvent where
  | submit (id : String)
  | startHandle
  | finishHandle
  deriving DecidableEq, Repr

def execInit : ExecTraceState :=
  { pending := [], inFlight := none, contexts := [], submitted := [],
    handled := [] }

/-- One step of the executor.  A startHandle with an empty channel or a
handler still running, or a finishHandle with no handler running, does
nothing (the goroutine would simply be blocked). -/
def execStep (st : ExecTraceState) : ExecEvent → ExecTraceState
  | .submit id =>
      { st with pending := st.pending ++ [id],
                submitted := st.submitted ++ [id] }
  | .startHandle =>
      match st.inFlight, st.pending with
      | none, id :: rest =>
          { st with pending := rest, inFlight := some id,
                    contexts := mapSet st.contexts id false }
      | _, _ => st
  | .finishHandle =>
      match st.inFlight with
      | some id =>
          { st with inFlight := none, contexts := mapDel st.contexts id,
                    handled := st.handled ++ [id] }
      | none => st

def execRun (events : List ExecEvent) : ExecTraceState :=
  events.foldl execStep execInit

/-- The invariant claimed by C7, stated on a state: every submitted but
not yet handled request has a registry entry. -/
def registeredFromSubmission (st : ExecTraceState) : Prop :=
  ∀ id ∈ st.submitted, id ∉ st.handled →
    (mapGet st.contexts id).isSome = true

/-! ## Channel workers (part_002 lines 218-432)

ExecuteProjectsQueryAsync, ExecuteSessionsQueryAsync and
ExecuteMessagesQueryAsync each spawn one goroutine that owns a result
channel with buffer 1 and closes it on return.  The goroutine body is
embedded as a pure function from a WorkerEnv — the outcome of
db.QueryContext, the row stream (a failed rows.Scan is a skipped row),
the loop iteration at which ctx.Done is first observed, and the winners
of the two select statements that guard the sends — to the list of sends
the goroutine performs before closing the channel. -/

/-- A scanned projects-query row (part_002 line 250). -/
structure ProjectRow where
  path : String
  sessionCount : Nat
  lastActivity : Option String
  deriving DecidableEq, Repr

/-- A scanned sessions-query row (part_002 line 317). -/
structure SessionRow where
  sessionId : String
  lastActivity : Option String
  isResumed : Bool
  deriving DecidableEq, Repr

/-- A scanned messages-query row (part_002 lines 381-386). -/
structure MessageRow where
  messageType : Option String
  messageJSON : Option String
  position : Option String
  count : Option Int
  deriving DecidableEq, Repr

structure WorkerEnv (ρ : Type) where
  /-- Error returned by db.QueryContext, if any. -/
  queryError : Option GoError
  /-- The row stream; none stands for a row whose rows.Scan fails and is
  skipped by the continue. -/
  rows : List (Option ρ)
  /-- Iteration index at whose top-of-loop cancellation check ctx.Done is
  first observed ready, if any. -/
  cancelObservedAtRow : Option Nat
  /-- The error-path select takes the ctx.Done branch instead of sending. -/
  cancelPreemptsErrorSend : Bool
  /-- The final select takes the ctx.Done branch instead of sending. -/
  cancelPreemptsResultSend : Bool
  deriving DecidableEq, Repr

/-- Whether the row loop returns early at a cancellation check point. -/
def cancelDuringRows {ρ : Type} (env : WorkerEnv ρ) : Bool :=
  match env.cancelObservedAtRow with
  | some i => decide (i < env.rows.length)
  | none => false

/-- The rows that survive rows.Scan. -/
def scannedRows {ρ : Type} (env : WorkerEnv ρ) : List ρ :=
  env.rows.filterMap id

/-- Go filepath.Base for slash-separated paths: empty path gives ".",
trailing slashes are dropped, an all-slash path gives "/", otherwise the
last path element. -/
def filepathBase (p : String) : String :=
  if p.isEmpty then "."
  else
    let noTrail := (p.toList.reverse.dropWhile (fun c => c = '/')).reverse
    if noTrail.isEmpty then "/"
    else String.mk (noTrail.reverse.takeWhile (fun c => c ≠ '/')).reverse

/-- Row processing of the projects worker (part_002 lines 254-269): name
from the path, raw lastActivity carried through. -/
def processProjectRow (r : ProjectRow) : Project :=
  { path := r.path
    name := if r.path = "Unknown" ∨ r.path = "" then "Unknown"
            else filepathBase r.path
    sessionCount := r.sessionCount
    lastActivity := r.lastActivity }

/-- Sends of the ExecuteProjectsQueryAsync goroutine: at most the error
(guarded by a select against ctx.Done), or at most the final projects
slice (same guard); an early return on a cancellation check sends
nothing.  Each send is one AsyncQueryResult with only the Error or only
the Projects field populated, rendered here as Except. -/
def projectsWorkerSends (env : WorkerEnv ProjectRow) :
    List (Except GoError (List Project)) :=
  match env.queryError with
  | some e => if env.cancelPreemptsErrorSend then [] else [Except.error e]
  | none =>
      if cancelDuringRows env then []
      else if env.cancelPreemptsResultSend then []
      else [Except.ok ((scannedRows env).map processProjectRow)]

/-- Row processing of the sessions worker (part_002 lines 313-334); the
ProjectPath field is only set later by the wrapper, the Summary never. -/
def processSessionRow (r : SessionRow) : Session :=
  { sessionId := r.sessionId
    projectPath := ""
    lastActivity := r.lastActivity
    summary := ""
    isResumed := r.isResumed }

/-- Sends of the ExecuteSessionsQueryAsync goroutine (part_002 lines
284-344), same shape as the projects worker. -/
def sessionsWorkerSends (env : WorkerEnv SessionRow) :
    List (Except GoError (List Session)) :=
  match env.queryError with
  | some e => if env.cancelPreemptsErrorSend then [] else [Except.error e]
  | none =>
      if cancelDuringRows env then []
      else if env.cancelPreemptsResultSend then []
      else [Except.ok ((scannedRows env).map processSessionRow)]

/-- Accumulator of the message-combining loop (part_002 lines 367-371). -/
structure MsgAccum where
  messages : List String
  firstMessages : List String
  lastMessages : List String
  totalCount : Int
  lastPosition : String
  deriving DecidableEq, Repr

def msgAccumInit : MsgAccum :=
  { messages := [], firstMessages := [], lastMessages := [],
    totalCount := 0, lastPosition := "" }

def omittedMarker (k : Int) : String :=
  "... (" ++ toString k ++ " messages omitted) ..."

/-- One iteration of the messages row loop (part_002 lines 373-416).
formatMessageWithRole (sessions.go line 513, pure JSON formatting whose
output no claim depends on) is abstracted as the fmtMsg parameter; an
empty formatted string is skipped exactly as in the source. -/
def msgStep (fmtMsg : String → String → String) (acc : MsgAccum)
    (r : MessageRow) : MsgAccum :=
  let acc1 := match r.count with
    | some c => { acc with totalCount := c }
    | none => acc
  match r.messageJSON, r.messageType, r.position with
  | some mj, some mt, some pos =>
      if mj = "" then acc1
      else
        let f := fmtMsg mt mj
        if f = "" then acc1
        else if pos = "first" then
          { acc1 with firstMessages := acc1.firstMessages ++ [f],
                      lastPosition := "first" }
        else if pos = "last" then
          if acc1.lastPosition = "first" ∧ acc1.lastMessages = [] then
            if acc1.totalCount > 20 then
              { acc1 with
                messages := acc1.messages ++ acc1.firstMessages ++
                  [omittedMarker (acc1.totalCount - 20)]
                lastMessages := [f]
                lastPosition := "last" }
            else
              { acc1 with firstMessages := acc1.firstMessages ++ [f],
                          lastPosition := "last" }
          else
            { acc1 with lastMessages := acc1.lastMessages ++ [f],
                        lastPosition := "last" }
        else acc1
  | _, _, _ => acc1

/-- Final combination (part_002 lines 418-423). -/
def combineMessages (acc : MsgAccum) : List String :=
  if acc.lastMessages ≠ [] then acc.messages ++ acc.lastMessages
  else acc.firstMessages

/-- Sends of the ExecuteMessagesQueryAsync goroutine (part_002 lines
347-432).  The fmt.Errorf wrapping of the query error text is not
modelled; the error value is carried through as is. -/
def messagesWorkerSends (fmtMsg : String → String → String)
    (env : WorkerEnv MessageRow) : List (Except GoError (List String)) :=
  match env.queryError with
  | some e => if env.cancelPreemptsErrorSend then [] else [Except.error e]
  | none =>
      if cancelDuringRows env then []
      else if env.cancelPreemptsResultSend then []
      else [Except.ok (combineMessages
        ((scannedRows env).foldl (msgStep fmtMsg) msgAccumInit))]

/-- handleRequest (part_002 lines 96-156) delivers nothing on any path:
on a query error it returns whether or not the error was a cancellation
(the commented-out result channel does not exist), and the per-type row
loops carry no send either. -/
def handleRequestSends {ρ : Type} (env : WorkerEnv ρ) :
    List (Except GoError Unit) :=
  match env.queryError with
  | some _ => []
  | none => []

/-! ## Consumer-facing wrappers (part_004 lines 14-234)

Each Fetch...Async wrapper starts the matching worker and then selects
between the result channel and ctx.Done, returning Go's (value, error)
pair.  The worker runs defer close(resultChan), so when it goes silent
(empty send list, only possible under cancellation) the channel is
closed without a send and a receive from it is immediately ready with
the zero value AsyncQueryResult: the wrapper's select can then commit
either to the ctx.Done branch, returning ctx.Err(), or to the receive
branch, seeing a nil Error and returning the zero value's nil payload
with a nil error.  Whenever both branches are ready the winner is the
cancelWinsWrapperSelect parameter.  The home-directory and
database-handle failure paths before the fetch are outside the model. -/

def fetchProjectsWithStatsAsync (env : WorkerEnv ProjectRow)
    (cancelWinsWrapperSelect : Bool) :
    Option (List Project) × Option GoError :=
  match projectsWorkerSends env with
  | [] =>
      if cancelWinsWrapperSelect then (none, some GoError.contextCanceled)
      else (none, none)
  | Except.error e :: _ =>
      if cancelWinsWrapperSelect then (none, some GoError.contextCanceled)
      else (none, some e)
  | Except.ok ps :: _ =>
      if cancelWinsWrapperSelect then (none, some GoError.contextCanceled)
      else (some ps, none)

/-- FetchSessionsForProjectAsync (part_004 lines 61-174) additionally
stamps the project path onto every returned session; on the zero-value
receive from the closed channel the loop runs over a nil slice and nil
is returned with a nil error. -/
def fetchSessionsForProjectAsync (projectPath : String)
    (env : WorkerEnv SessionRow) (cancelWinsWrapperSelect : Bool) :
    Option (List Session) × Option GoError :=
  match sessionsWorkerSends env with
  | [] =>
      if cancelWinsWrapperSelect then (none, some GoError.contextCanceled)
      else (none, none)
  | Except.error e :: _ =>
      if cancelWinsWrapperSelect then (none, some GoError.contextCanceled)
      else (none, some e)
  | Except.ok ss :: _ =>
      if cancelWinsWrapperSelect then (none, some GoError.contextCanceled)
      else (some (ss.map (fun s => { s with projectPath := projectPath })),
        none)

/-- FetchRecentMessagesForSessionAsync (part_004 lines 176-234), with
the same closed-channel zero-value receive path. -/
def fetchRecentMessagesForSessionAsync (fmtMsg : String → String → String)
    (env : WorkerEnv MessageRow) (cancelWinsWrapperSelect : Bool) :
    Option (List String) × Option GoError :=
  match messagesWorkerSends fmtMsg env with
  | [] =>
      if cancelWinsWrapperSelect then (none, some GoError.contextCanceled)
      else (none, none)
  | Except.error e :: _ =>
      if cancelWinsWrapperSelect then (none, some GoError.contextCanceled)
      else (none, some e)
  | Except.ok ms :: _ =>
      if cancelWinsWrapperSelect then (none, some GoError.contextCanceled)
      else (some ms, none)

/-! ## Deadlines handed to the underlying queries (claim C4) -/

/-- context.WithTimeout(ctx, 30*time.Second) in ExecuteProjectsQueryAsync
(part_002 line 225). -/
def projectsQueryTimeoutSeconds : Nat := 30

/-- context.WithTimeout(ctx, 30*time.Second) in ExecuteSessionsQueryAsync
(part_002 line 291). -/
def sessionsQueryTimeoutSeconds : Nat := 30

/-- context.WithTimeout(ctx, 15*time.Second) in ExecuteMessagesQueryAsync
(part_002 line 354). -/
def messagesQueryTimeoutSeconds : Nat := 15

/-- A Go context.Context, reduced to what the claims need: an optional
deadline (seconds from now at creation) and the cancelled flag. -/
structure GoCtx where
  deadlineSeconds : Option Nat
  cancelled : Bool
  deriving DecidableEq, Repr

/-- context.WithTimeout: the child carries the tighter of the parent
deadline and the new timeout. -/
def contextWithTimeout (ctx : GoCtx) (secs : Nat) : GoCtx :=
  { ctx with
    deadlineSeconds := some (match ctx.deadlineSeconds with
      | some d => min d secs
      | none => secs) }

inductive FetchKind where
  | projects
  | sessions
  | messages
  | summaries
  deriving DecidableEq, Repr

/-- The context each fetch kind hands to the underlying query: the three
channel workers wrap the caller's ctx with WithTimeout (part_002 lines
224-226, 290-292, 353-355); the summaries path (FetchSessionSummariesAsync,
async_summaries.go line 43, calling batchFetchSummaries, sessions.go
lines 127 and 173) issues database.Query with no context at all, so no
deadline carrier reaches the query (none). -/
def queryCtxForKind : FetchKind → GoCtx → Option GoCtx
  | .projects, ctx => some (contextWithTimeout ctx projectsQueryTimeoutSeconds)
  | .sessions, ctx => some (contextWithTimeout ctx sessionsQueryTimeoutSeconds)
  | .messages, ctx => some (contextWithTimeout ctx messagesQueryTimeoutSeconds)
  | .summaries, _ => none

/-! ## Summary batch fetch (sessions.go lines 92-189,
async_summaries.go lines 13-54)

The catalog is modelled as the list of log events the DuckDB queries
read; the two SQL queries of batchFetchSummaries become pure functions
over it.  Instrumentation: each function returns, alongside its value,
the number of catalog queries it issued, so the no-query claims are
statable. -/

/-- One log event as seen by the summary queries; sessionId, leafUuid and
summary are nullable columns. -/
structure LogEvent where
  sessionId : Option String
  uuid : String
  typ : String
  leafUuid : Option String
  summary : Option String
  timestamp : Nat
  deriving DecidableEq, Repr

/-- Filter of query 1: CAST(sessionId AS VARCHAR) IN (requested ids) AND
type <> 'summary' (sessions.go lines 119-120). -/
def eventSessionIn (ids : List String) (e : LogEvent) : Bool :=
  match e.sessionId with
  | some s => ids.contains s && e.typ ≠ "summary"
  | none => false

def nonSummaryEventsFor (db : List LogEvent) (ids : List String) :
    List LogEvent :=
  db.filter (eventSessionIn ids)

def sessionIdsOf (evs : List LogEvent) : List String :=
  (evs.filterMap (fun e => e.sessionId)).dedup

/-- The uuid of the latest event of session s among evs (ROW_NUMBER OVER
PARTITION BY sessionId ORDER BY timestamp DESC, rn = 1; a timestamp tie
keeps the earlier row — SQL leaves ties unspecified). -/
def latestUuidFor (evs : List LogEvent) (s : String) : Option String :=
  let mine := evs.filter (fun e => e.sessionId = some s)
  match mine.foldl (fun best e =>
    match best with
    | none => some e
    | some b => if e.timestamp > b.timestamp then some e else some b)
    none with
  | some e => some e.uuid
  | none => none

/-- The sessionUuids map built from the rows of query 1 (sessions.go
lines 133-139): one entry per session appearing among the filtered
events, holding its last uuid. -/
def sessionUuids (db : List LogEvent) (ids : List String) :
    List (String × String) :=
  (sessionIdsOf (nonSummaryEventsFor db ids)).filterMap
    (fun s =>
      match latestUuidFor (nonSummaryEventsFor db ids) s with
      | some u => some (s, u)
      | none => none)

/-- The uuidToSession inversion (sessions.go lines 146-151); a duplicate
uuid value overwrites, as Go map assignment does. -/
def uuidToSession (su : List (String × String)) : List (String × String) :=
  su.foldl (fun m p => mapSet m p.2 p.1) []

/-- Rows of query 2 (sessions.go lines 160-171): type = 'summary' AND
CAST(leafUuid AS VARCHAR) IN (uuids); a row with a NULL column fails the
plain-string Scan and is skipped. -/
def summaryRows (db : List LogEvent) (uuids : List String) :
    List (String × String) :=
  db.filterMap (fun e =>
    if e.typ = "summary" then
      match e.leafUuid, e.summary with
      | some lu, some sm =>
          if uuids.contains lu then some (lu, sm) else none
      | _, _ => none
    else none)

/-- batchFetchSummaries (sessions.go lines 92-189).  Returns the summary
map and the number of catalog queries issued: 0 on the empty-input early
return, 1 when query 1 resolves no session, 2 otherwise. -/
def batchFetchSummaries (db : List LogEvent) (ids : List String) :
    List (String × String) × Nat :=
  if ids.isEmpty then ([], 0)
  else
    let su := sessionUuids db ids
    if su.isEmpty then ([], 1)
    else
      let u2s := uuidToSession su
      let uuids := su.map Prod.snd
      let res := (summaryRows db uuids).foldl
        (fun m p =>
          match mapGet u2s p.1 with
          | some s => mapSet m s p.2
          | none => m) []
      (res, 2)

/-- FetchSessionSummariesAsync (async_summaries.go lines 13-54): an empty
id list returns a fresh empty map and nil error before touching the
catalog; otherwise a goroutine either observes ctx.Done before the fetch
and sends an empty map, or runs batchFetchSummaries and sends its result;
the outer select returns the received map with nil error, or, when
ctx.Done wins, a fresh empty map with ctx.Err(). -/
def fetchSessionSummariesAsync (db : List LogEvent) (ids : List String)
    (cancelledBeforeFetch cancelledDuringFetch chanWinsSelect : Bool) :
    (List (String × String) × Option GoError) × Nat :=
  if ids.isEmpty then (([], none), 0)
  else if cancelledBeforeFetch then
    if chanWinsSelect then (([], none), 0)
    else (([], some GoError.contextCanceled), 0)
  else if cancelledDuringFetch then
    (([], some GoError.contextCanceled), (batchFetchSummaries db ids).2)
  else
    ((((batchFetchSummaries db ids).1), none),
      (batchFetchSummaries db ids).2)

/-! ## TUI model for the async message flow

The async TUI model referenced by the tests in part_004 (initialModel
with messageCache, loadingMessages, activeRequests, loadingState, and an
Update case for MessagesLoadedMsg; TestMessageLoadedHandling lines
419-467, TestCacheLookupBeforeLoad lines 589-627) is not among the source
files; only its message types (part_004 lines 744-801), its async
commands and its tests are.  The two handlers the claims need are
therefore modelled from the spec. -/

/-- MessagesLoadedMsg (part_004 lines 792-797). -/
structure MessagesLoadedMsg where
  sessionID : String
  messages : List String
  error : Option GoError
  deriving DecidableEq, Repr

structure TuiModel where
  messageCache : List (String × List String)
  loadingMessages : List (String × Bool)
  loadingState : LoadingState
  currentMessages : List String
  selectedSessionId : Option String
  activeRequests : List String
  deriving DecidableEq, Repr

/-- Modelled from the spec: the async TUI model's Update case for
MessagesLoadedMsg, which is not under src/ (only the message type and
its tests are).  Per spec section 4.3 a late result is detected by
sessionId mismatch against the currently selected session and discarded
rather than applied; per P2 the cache for the arriving sessionId is
still populated (and the per-session loading flag cleared, as
TestMessageLoadedHandling asserts), but the visible state is only
updated on a match; an error outcome sets the Error loading state only
for the currently selected session (section 4.2). -/
def handleMessagesLoaded (m : TuiModel) (msg : MessagesLoadedMsg) :
    TuiModel :=
  let cleared := mapSet m.loadingMessages msg.sessionID false
  match msg.error with
  | some _ =>
      if m.selectedSessionId = some msg.sessionID then
        { m with loadingMessages := cleared,
                 loadingState := LoadingState.stateError }
      else { m with loadingMessages := cleared }
  | none =>
      let cached :=
        { m with
          messageCache := mapSet m.messageCache msg.sessionID msg.messages
          loadingMessages := cleared }
      if m.selectedSessionId = some msg.sessionID then
        { cached with currentMessages := msg.messages,
                      loadingState := LoadingState.idle }
      else cached

/-- Modelled from the spec: the cache consultation performed on session
selection, which is not under src/ (only TestCacheLookupBeforeLoad is).
Per spec section 4.4 and P3 a cache hit short-circuits the pipeline —
cached messages are shown synchronously, no request is created and no
loading transition happens; on a miss a fetch request for the session is
issued (second component) and the loading machinery engages. -/
def selectSessionMessages (m : TuiModel) (sid : String) :
    TuiModel × Option String :=
  match mapGet m.messageCache sid with
  | some msgs =>
      ({ m with currentMessages := msgs, selectedSessionId := some sid },
        none)
  | none =>
      ({ m with
          selectedSessionId := some sid
          loadingState := LoadingState.loadingMessages
          loadingMessages := mapSet m.loadingMessages sid true
          activeRequests := m.activeRequests ++ [sid] },
        some sid)

end ClaudeResume

namespace ClaudeResume

/-! ## Basic lemmas about the map helpers -/

theorem mapGet_mapSet_ne {α : Type} (l : List (String × α)) (k k2 : String)
    (v : α) (h : k2 ≠ k) : mapGet (mapSet l k v) k2 = mapGet l k2 := by
  induction l with
  | nil => simp [mapSet, mapGet, Ne.symm h]
  | cons hd tl ih =>
      by_cases hk : hd.1 = k
      · simp only [mapSet, hk, if_pos]
        simp [mapGet, Ne.symm h, hk]
      · simp only [mapSet, hk, if_neg, not_false_iff]
        by_cases hk2 : hd.1 = k2
        · simp [mapGet, hk2]
        · simp [mapGet, hk2, ih]

/-! ## Claim C5: Cancel is a no-op on an absent id -/

/-- C5: for every executor state and every requestId absent from the
registry, Cancel(requestId) returns without error, leaves the whole
state (in particular the registry map) unchanged, and therefore does not
invoke or affect the cancel handle of any other registered request. -/
theorem cancel_absent_noop (e : AsyncExecutor) (requestID : String)
    (h : mapGet e.contexts requestID = none) :
    e.cancel requestID = e ∧
      ∀ id2, mapGet (e.cancel requestID).contexts id2 =
        mapGet e.contexts id2 := by
  constructor
  · simp [AsyncExecutor.cancel, h]
  · intro id2
    simp [AsyncExecutor.cancel, h]

/-- Witness for C5 at a concrete state: the id "gone" is absent while
"live" is registered un-cancelled; Cancel "gone" changes nothing. -/
theorem cancel_absent_noop_witness :
    mapGet [("live", false)] "gone" = none ∧
      (AsyncExecutor.mk false false false [] [("live", false)]).cancel
          "gone" =
        AsyncExecutor.mk false false false [] [("live", false)] :=
  ⟨by decide,
    (cancel_absent_noop
      (AsyncExecutor.mk false false false [] [("live", false)])
      "gone" (by decide)).1⟩

/-! ## Claim C6: CancelAll frame condition -/

/-- C6: CancelAll invokes the cancel handle of every registered request
(every flag becomes true) and removes no entry from the registry map:
the list of registered requestIds, and every other executor field, is
unchanged. -/
theorem cancelAll_frame (e : AsyncExecutor) :
    (e.cancelAll).contexts.map Prod.fst = e.contexts.map Prod.fst ∧
      (∀ p ∈ (e.cancelAll).contexts, p.2 = true) ∧
      (e.cancelAll).contexts.length = e.contexts.length ∧
      (e.cancelAll).pending = e.pending ∧
      (e.cancelAll).closed = e.closed ∧
      (e.cancelAll).requestsClosed = e.requestsClosed := by
  refine ⟨?_, ?_, ?_, rfl, rfl, rfl⟩
  · simp [AsyncExecutor.cancelAll]
  · intro p hp
    simp only [AsyncExecutor.cancelAll, List.mem_map] at hp
    obtain ⟨q, _, hq⟩ := hp
    rw [← hq]
  · simp [AsyncExecutor.cancelAll]

/-! ## Claim C9: Close is idempotent and disables submission -/

theorem close_close (e : AsyncExecutor) : e.close.close = e.close := by
  by_cases h : e.closeDone
  · simp [AsyncExecutor.close, h]
  · simp [AsyncExecutor.close, h]

/-- C9: calling Close n+1 times equals calling it once; the single
effective call sets the closed flag, closes the requests channel and
invokes every registered cancel handle; and every Submit made after
Close returns the empty string without enqueuing anything (the executor
state, in particular the pending queue, is untouched). -/
theorem close_idempotent_disables_submit (e : AsyncExecutor) (n : Nat)
    (h : e.closeDone = false) :
    AsyncExecutor.close^[n + 1] e = e.close ∧
      (e.close).closed = true ∧
      (e.close).requestsClosed = true ∧
      (∀ p ∈ (e.close).contexts, p.2 = true) ∧
      (∀ freshId enqueueWins,
        (e.close).submit freshId enqueueWins = (e.close, "")) ∧
      (e.close).pending = e.pending := by
  have hclosed : (e.close).closed = true := by
    simp [AsyncExecutor.close, h]
  refine ⟨?_, hclosed, ?_, ?_, ?_, ?_⟩
  · induction n with
    | zero => simp
    | succ m ih =>
        rw [Function.iterate_succ_apply', ih, close_close]
  · simp [AsyncExecutor.close, h]
  · intro p hp
    simp only [AsyncExecutor.close, h, if_neg, Bool.false_eq_true,
      not_false_iff, List.mem_map] at hp
    obtain ⟨q, _, hq⟩ := hp
    rw [← hq]
  · intro freshId enqueueWins
    simp [AsyncExecutor.submit, hclosed]
  · simp [AsyncExecutor.close, h]

/-- Witness for C9 at a concrete executor with one registered request:
two Closes equal one, and a Submit after Close returns "". -/
theorem close_idempotent_disables_submit_witness :
    (AsyncExecutor.mk false false false [] [("a", false)]).closeDone
        = false ∧
      AsyncExecutor.close^[2]
          (AsyncExecutor.mk false false false [] [("a", false)]) =
        (AsyncExecutor.mk false false false [] [("a", false)]).close ∧
      (AsyncExecutor.mk false false false [] [("a", false)]).close.submit
          "x" true =
        ((AsyncExecutor.mk false false false [] [("a", false)]).close,
          "") :=
  ⟨rfl,
    (close_idempotent_disables_submit
      (AsyncExecutor.mk false false false [] [("a", false)]) 1 rfl).1,
    (close_idempotent_disables_submit
      (AsyncExecutor.mk false false false [] [("a", false)]) 1
      rfl).2.2.2.2.1 "x" true⟩

/-! ## Claim C7: registry entry lifecycle -/

/-- C7 counterexample: after Submit("r1") returns (the request is
submitted, not terminal), the registry holds no entry for "r1" — the
entry is only created when handleRequest dequeues the request.  This
refutes "an entry exists from the moment of submission". -/
theorem registry_lifecycle_counterexample :
    ¬ registeredFromSubmission (execRun [ExecEvent.submit "r1"]) := by
  intro hinv
  have h := hinv "r1" (by decide) (by decide)
  simp [execRun, execInit, execStep, mapGet] at h

theorem execStep_keys_inFlight (st : ExecTraceState) (ev : ExecEvent)
    (h : st.contexts.map Prod.fst = st.inFlight.toList) :
    (execStep st ev).contexts.map Prod.fst =
      (execStep st ev).inFlight.toList := by
  cases ev with
  | submit id => simpa [execStep] using h
  | startHandle =>
      cases hif : st.inFlight with
      | some id => simpa [execStep, hif] using h
      | none =>
          cases hp : st.pending with
          | nil => simpa [execStep, hif, hp] using h
          | cons id rest =>
              rw [hif] at h
              simp only [Option.toList_none, List.map_eq_nil_iff] at h
              simp [execStep, hif, hp, h, mapSet]
  | finishHandle =>
      cases hif : st.inFlight with
      | none => simpa [execStep, hif] using h
      | some id =>
          rw [hif] at h
          cases hc : st.contexts with
          | nil => simp [hc] at h
          | cons hd tl =>
              rw [hc] at h
              simp only [List.map_cons, Option.toList_some,
                List.cons.injEq, List.map_eq_nil_iff] at h
              obtain ⟨h1, h2⟩ := h
              simp [execStep, hif, hc, mapDel, h1, h2]

/-- C7 amended: a registry entry exists from the moment handleRequest
begins processing a request (not from submission) until handleRequest
returns; at every point the registered requestIds are exactly the
in-flight request, so each entry is removed exactly once (by the single
deferred delete) and the registry is empty whenever no request is being
handled — in particular after every submitted request has completed or
been cancelled. -/
theorem registry_entry_lifecycle (events : List ExecEvent) :
    (execRun events).contexts.map Prod.fst =
        (execRun events).inFlight.toList ∧
      ((execRun events).inFlight = none →
        (execRun events).contexts = []) := by
  have hmain : ∀ evs : List ExecEvent,
      (execRun evs).contexts.map Prod.fst =
        (execRun evs).inFlight.toList := by
    intro evs
    rw [execRun]
    induction evs using List.reverseRecOn with
    | nil => simp [execInit]
    | append_singleton front ev ih =>
        rw [List.foldl_append, List.foldl_cons, List.foldl_nil]
        exact execStep_keys_inFlight _ ev ih
  refine ⟨hmain events, ?_⟩
  intro hnone
  have h := hmain events
  rw [hnone] at h
  simpa using h

/-- Witness for C7 amended: submit, start handling, finish handling; the
registry is empty at the end. -/
theorem registry_entry_lifecycle_witness :
    (execRun [ExecEvent.submit "r1", ExecEvent.startHandle,
        ExecEvent.finishHandle]).contexts = [] :=
  (registry_entry_lifecycle
      [ExecEvent.submit "r1", ExecEvent.startHandle,
        ExecEvent.finishHandle]).2
    (by decide)

/-! ## More map-helper lemmas -/

theorem mapGet_mapSet_self {α : Type} (l : List (String × α)) (k : String)
    (v : α) : mapGet (mapSet l k v) k = some v := by
  induction l with
  | nil => simp [mapSet, mapGet]
  | cons hd tl ih =>
      by_cases hk : hd.1 = k
      · simp [mapSet, hk, mapGet]
      · simp [mapSet, hk, mapGet, ih]

theorem mapGet_mapSet_isSome_of {α : Type} (l : List (String × α))
    (k s : String) (v : α) (h : (mapGet l s).isSome = true) :
    (mapGet (mapSet l k v) s).isSome = true := by
  by_cases hk : s = k
  · rw [hk, mapGet_mapSet_self]
    rfl
  · rw [mapGet_mapSet_ne l k s v hk]
    exact h

theorem mapGet_mapSet_cases {α : Type} (l : List (String × α))
    (k u : String) (v x : α) (h : mapGet (mapSet l k v) u = some x) :
    (u = k ∧ x = v) ∨ mapGet l u = some x := by
  by_cases hk : u = k
  · rw [hk, mapGet_mapSet_self] at h
    exact Or.inl ⟨hk, (Option.some.injEq _ _ ▸ h).symm⟩
  · rw [mapGet_mapSet_ne l k u v hk] at h
    exact Or.inr h

theorem mapSet_keys {α : Type} (l : List (String × α)) (k s : String)
    (v : α) (h : s ∈ (mapSet l k v).map Prod.fst) :
    s = k ∨ s ∈ l.map Prod.fst := by
  induction l with
  | nil => simpa [mapSet] using h
  | cons hd tl ih =>
      by_cases hk : hd.1 = k
      · simp only [mapSet, hk, if_pos, List.map_cons, List.mem_cons] at h
        rcases h with h | h
        · exact Or.inl h
        · exact Or.inr (by simp [h])
      · simp only [mapSet, hk, if_neg, not_false_iff, List.map_cons,
          List.mem_cons] at h
        rcases h with h | h
        · exact Or.inr (by simp [h])
        · rcases ih h with h2 | h2
          · exact Or.inl h2
          · exact Or.inr (by simp [h2])

/-! ## Claim C2: at-most-one delivery per result channel -/

/-- C2: every run of each of the three channel workers performs at most
one send on its result channel before closing it, never two. -/
theorem at_most_one_delivery (fmtMsg : String → String → String)
    (envP : WorkerEnv ProjectRow) (envS : WorkerEnv SessionRow)
    (envM : WorkerEnv MessageRow) :
    (projectsWorkerSends envP).length ≤ 1 ∧
      (sessionsWorkerSends envS).length ≤ 1 ∧
      (messagesWorkerSends fmtMsg envM).length ≤ 1 := by
  refine ⟨?_, ?_, ?_⟩
  · cases h : envP.queryError with
    | some e =>
        by_cases hc : envP.cancelPreemptsErrorSend <;>
          simp [projectsWorkerSends, h, hc]
    | none =>
        by_cases h1 : cancelDuringRows envP <;>
          by_cases h2 : envP.cancelPreemptsResultSend <;>
            simp [projectsWorkerSends, h, h1, h2]
  · cases h : envS.queryError with
    | some e =>
        by_cases hc : envS.cancelPreemptsErrorSend <;>
          simp [sessionsWorkerSends, h, hc]
    | none =>
        by_cases h1 : cancelDuringRows envS <;>
          by_cases h2 : envS.cancelPreemptsResultSend <;>
            simp [sessionsWorkerSends, h, h1, h2]
  · cases h : envM.queryError with
    | some e =>
        by_cases hc : envM.cancelPreemptsErrorSend <;>
          simp [messagesWorkerSends, h, hc]
    | none =>
        by_cases h1 : cancelDuringRows envM <;>
          by_cases h2 : envM.cancelPreemptsResultSend <;>
            simp [messagesWorkerSends, h, h1, h2]

/-! ## Claim C3: silence-on-cancel is not what reaches the consumer -/

/-- C3 counterexample: the claim says a cancelled fetch delivers neither
a success nor an error value to the consumer, for every fetch kind.  For
the projects kind, a fetch whose cancellation is observed during row
processing makes the worker silent, and the wrapper then returns
ctx.Err() — an error value reaching the consumer. -/
theorem silence_on_cancel_counterexample :
    ¬ (∀ (env : WorkerEnv ProjectRow) (w : Bool),
        cancelDuringRows env = true →
        (fetchProjectsWithStatsAsync env w).2 = none) := by
  intro h
  have h2 := h (WorkerEnv.mk none [none] (some 0) false false) true
    (by decide)
  simp [fetchProjectsWithStatsAsync, projectsWorkerSends,
    cancelDuringRows] at h2

/-- C3 amended: when cancellation is observed during row processing the
channel-level workers deliver nothing on their result channels (and
handleRequest never delivers anything on any path); the consumer-facing
wrappers, however, always deliver an outcome on cancellation — the
projects, sessions and messages wrappers return either ctx.Err() via the
ctx.Done branch of their select, or a nil-error zero-value result via
the always-ready receive from the closed result channel, and the
summaries wrapper likewise returns an empty map with either ctx.Err()
or a nil error depending on the same race — so the no-delivery policy
holds only at the channel layer, and what reaches the consumer is
neither silence nor uniformly an error. -/
theorem silence_on_cancel_layers (fmtMsg : String → String → String)
    (envP : WorkerEnv ProjectRow) (envS : WorkerEnv SessionRow)
    (envM : WorkerEnv MessageRow) (envH : WorkerEnv Unit)
    (db : List LogEvent) (ids : List String) (pp : String)
    (w1 w2 w3 chanWins : Bool)
    (hPq : envP.queryError = none) (hP : cancelDuringRows envP = true)
    (hSq : envS.queryError = none) (hS : cancelDuringRows envS = true)
    (hMq : envM.queryError = none) (hM : cancelDuringRows envM = true)
    (hids : ids ≠ []) :
    projectsWorkerSends envP = [] ∧
      sessionsWorkerSends envS = [] ∧
      messagesWorkerSends fmtMsg envM = [] ∧
      handleRequestSends envH = [] ∧
      fetchProjectsWithStatsAsync envP w1 =
        (none, if w1 = true then some GoError.contextCanceled
               else none) ∧
      fetchSessionsForProjectAsync pp envS w2 =
        (none, if w2 = true then some GoError.contextCanceled
               else none) ∧
      fetchRecentMessagesForSessionAsync fmtMsg envM w3 =
        (none, if w3 = true then some GoError.contextCanceled
               else none) ∧
      (fetchSessionSummariesAsync db ids true false chanWins =
          (([], none), 0) ∨
        fetchSessionSummariesAsync db ids true false chanWins =
          (([], some GoError.contextCanceled), 0)) := by
  have hP0 : projectsWorkerSends envP = [] := by
    simp [projectsWorkerSends, hPq, hP]
  have hS0 : sessionsWorkerSends envS = [] := by
    simp [sessionsWorkerSends, hSq, hS]
  have hM0 : messagesWorkerSends fmtMsg envM = [] := by
    simp [messagesWorkerSends, hMq, hM]
  refine ⟨hP0, hS0, hM0, ?_, ?_, ?_, ?_, ?_⟩
  · cases h : envH.queryError <;> simp [handleRequestSends, h]
  · cases w1 <;> simp [fetchProjectsWithStatsAsync, hP0]
  · cases w2 <;> simp [fetchSessionsForProjectAsync, hS0]
  · cases w3 <;> simp [fetchRecentMessagesForSessionAsync, hM0]
  · by_cases hw : chanWins = true
    · exact Or.inl (by simp [fetchSessionSummariesAsync, hids, hw])
    · exact Or.inr (by
        simp only [Bool.not_eq_true] at hw
        simp [fetchSessionSummariesAsync, hids, hw])

/-- Witness for C3 amended at concrete cancelled environments,
exercising both select outcomes of the projects wrapper: ctx.Err() when
the ctx.Done branch wins, a nil-error zero-value result when the
closed-channel receive wins. -/
theorem silence_on_cancel_layers_witness :
    fetchProjectsWithStatsAsync
        (WorkerEnv.mk none [none] (some 0) false false) true =
        (none, some GoError.contextCanceled) ∧
      fetchProjectsWithStatsAsync
        (WorkerEnv.mk none [none] (some 0) false false) false =
        (none, none) :=
  ⟨(silence_on_cancel_layers (fun _ _ => "")
      (WorkerEnv.mk none [none] (some 0) false false)
      (WorkerEnv.mk none [none] (some 0) false false)
      (WorkerEnv.mk none [none] (some 0) false false)
      (WorkerEnv.mk none [] none false false)
      [] ["s1"] "/p" true true true false
      rfl (by decide) rfl (by decide) rfl (by decide)
      (by decide)).2.2.2.2.1,
    (silence_on_cancel_layers (fun _ _ => "")
      (WorkerEnv.mk none [none] (some 0) false false)
      (WorkerEnv.mk none [none] (some 0) false false)
      (WorkerEnv.mk none [none] (some 0) false false)
      (WorkerEnv.mk none [] none false false)
      [] ["s1"] "/p" false true true false
      rfl (by decide) rfl (by decide) rfl (by decide)
      (by decide)).2.2.2.2.1⟩

/-! ## Claim C4: deadline ceiling on every fetch -/

/-- C4 counterexample: the claim says the context handed to the
underlying query carries a deadline for every fetch kind; the summaries
fetch hands its queries no deadline-carrying context at all. -/
theorem deadline_counterexample :
    ¬ (∀ (k : FetchKind) (ctx : GoCtx), ∃ q,
        queryCtxForKind k ctx = some q ∧
          q.deadlineSeconds.isSome = true) := by
  intro h
  obtain ⟨q, hq, _⟩ := h FetchKind.summaries (GoCtx.mk none false)
  simp [queryCtxForKind] at hq

/-- C4 amended: the three channel workers hand the underlying query a
context with an attached deadline — 30 seconds for the projects and
sessions list queries, 15 seconds for the message query — but the
summaries fetch hands its queries no deadline at all. -/
theorem query_deadlines (ctx : GoCtx) (h : ctx.deadlineSeconds = none) :
    queryCtxForKind FetchKind.projects ctx =
        some { ctx with deadlineSeconds := some 30 } ∧
      queryCtxForKind FetchKind.sessions ctx =
        some { ctx with deadlineSeconds := some 30 } ∧
      queryCtxForKind FetchKind.messages ctx =
        some { ctx with deadlineSeconds := some 15 } ∧
      queryCtxForKind FetchKind.summaries ctx = none := by
  refine ⟨?_, ?_, ?_, rfl⟩ <;>
    simp [queryCtxForKind, contextWithTimeout, h,
      projectsQueryTimeoutSeconds, sessionsQueryTimeoutSeconds,
      messagesQueryTimeoutSeconds]

/-- Witness for C4 amended at a fresh background context. -/
theorem query_deadlines_witness :
    queryCtxForKind FetchKind.messages (GoCtx.mk none false) =
      some (GoCtx.mk (some 15) false) :=
  (query_deadlines (GoCtx.mk none false) rfl).2.2.1

/-! ## Claim C10: summary results are confined to the requested keys -/

theorem summaryFold_keys (u2s : List (String × String))
    (rows : List (String × String)) (acc : List (String × String))
    (s : String)
    (h : s ∈ (rows.foldl
      (fun m p =>
        match mapGet u2s p.1 with
        | some s2 => mapSet m s2 p.2
        | none => m) acc).map Prod.fst) :
    s ∈ acc.map Prod.fst ∨ ∃ p ∈ rows, mapGet u2s p.1 = some s := by
  induction rows generalizing acc with
  | nil => exact Or.inl (by simpa using h)
  | cons hd tl ih =>
      rw [List.foldl_cons] at h
      rcases ih _ h with h2 | h2
      · cases hu : mapGet u2s hd.1 with
        | none =>
            simp only [hu] at h2
            exact Or.inl h2
        | some s2 =>
            simp only [hu] at h2
            rcases mapSet_keys acc s2 s hd.2 h2 with h3 | h3
            · exact Or.inr ⟨hd, List.mem_cons_self hd tl,
                by rw [hu, h3]⟩
            · exact Or.inl h3
      · obtain ⟨p, hp, hps⟩ := h2
        exact Or.inr ⟨p, List.mem_cons_of_mem hd hp, hps⟩

theorem summaryFold_populates (u2s : List (String × String))
    (rows : List (String × String)) (acc : List (String × String))
    (s : String)
    (h : (mapGet acc s).isSome = true ∨
      ∃ p ∈ rows, mapGet u2s p.1 = some s) :
    (mapGet (rows.foldl
      (fun m p =>
        match mapGet u2s p.1 with
        | some s2 => mapSet m s2 p.2
        | none => m) acc) s).isSome = true := by
  induction rows generalizing acc with
  | nil =>
      rcases h with h | h
      · simpa using h
      · simp at h
  | cons hd tl ih =>
      rw [List.foldl_cons]
      rcases h with h | h
      · apply ih
        left
        cases hu : mapGet u2s hd.1 with
        | none => simpa [hu] using h
        | some s2 =>
            simp only [hu]
            exact mapGet_mapSet_isSome_of acc s2 s hd.2 h
      · obtain ⟨p, hp, hps⟩ := h
        rcases List.mem_cons.mp hp with hphd | hptl
        · apply ih
          left
          rw [hphd] at hps
          simp only [hps, mapGet_mapSet_self]
          rfl
        · exact ih _ (Or.inr ⟨p, hptl, hps⟩)

theorem uuidToSession_values (su : List (String × String))
    (acc : List (String × String)) (u s : String)
    (h : mapGet (su.foldl (fun m p => mapSet m p.2 p.1) acc) u = some s) :
    mapGet acc u = some s ∨ s ∈ su.map Prod.fst := by
  induction su generalizing acc with
  | nil => exact Or.inl (by simpa using h)
  | cons hd tl ih =>
      rw [List.foldl_cons] at h
      rcases ih _ h with h2 | h2
      · rcases mapGet_mapSet_cases acc hd.2 u hd.1 s h2 with ⟨_, hs⟩ | h3
        · exact Or.inr (by simp [List.map_cons, List.mem_cons, hs])
        · exact Or.inl h3
      · exact Or.inr (by
          simp only [List.map_cons]
          exact List.mem_cons_of_mem _ h2)

theorem eventSessionIn_nil (e : LogEvent) : eventSessionIn [] e = false := by
  unfold eventSessionIn
  cases e.sessionId <;> simp

theorem sessionUuids_nil (db : List LogEvent) : sessionUuids db [] = [] := by
  simp [sessionUuids, sessionIdsOf, nonSummaryEventsFor, eventSessionIn_nil]

theorem sessionUuids_fst_mem (db : List LogEvent) (ids : List String)
    (s : String) (h : s ∈ (sessionUuids db ids).map Prod.fst) :
    s ∈ ids := by
  simp only [sessionUuids, List.map_filterMap, List.mem_filterMap] at h
  obtain ⟨s0, hs0, hmatch⟩ := h
  have hs0s : s0 = s := by
    cases hu : latestUuidFor (nonSummaryEventsFor db ids) s0 with
    | none => simp [hu] at hmatch
    | some u =>
        simp only [hu, Option.map_some] at hmatch
        exact Option.some.injEq _ _ ▸ hmatch
  subst hs0s
  simp only [sessionIdsOf, List.mem_dedup, List.mem_filterMap,
    nonSummaryEventsFor, List.mem_filter] at hs0
  obtain ⟨e, ⟨_, hin⟩, hsid⟩ := hs0
  unfold eventSessionIn at hin
  rw [hsid] at hin
  simp only [Bool.and_eq_true, decide_eq_true_eq] at hin
  exact List.mem_of_elem_eq_true hin.1

/-- C10: the key set of the map produced by batchFetchSummaries is
always a subset of the requested session ids; for an empty request both
batchFetchSummaries and FetchSessionSummariesAsync return a non-nil
empty map (the latter with a nil error) while issuing zero catalog
queries; and partial resolution still populates every key that resolved
— any session a query-2 summary row maps back to is present in the
result. -/
theorem summary_keys_confined (db : List LogEvent) (ids : List String) :
    (∀ s ∈ (batchFetchSummaries db ids).1.map Prod.fst, s ∈ ids) ∧
      batchFetchSummaries db [] = ([], 0) ∧
      (∀ b1 b2 b3, fetchSessionSummariesAsync db [] b1 b2 b3 =
        (([], none), 0)) ∧
      (∀ lu sm s,
        (lu, sm) ∈ summaryRows db ((sessionUuids db ids).map Prod.snd) →
        mapGet (uuidToSession (sessionUuids db ids)) lu = some s →
        (mapGet (batchFetchSummaries db ids).1 s).isSome = true) := by
  refine ⟨?_, by simp [batchFetchSummaries], ?_, ?_⟩
  · intro s hs
    by_cases hids : ids.isEmpty
    · simp [batchFetchSummaries, hids] at hs
    · by_cases hsu : (sessionUuids db ids).isEmpty
      · simp [batchFetchSummaries, hids, hsu] at hs
      · simp only [batchFetchSummaries, hids, hsu, if_neg,
          Bool.false_eq_true, not_false_iff] at hs
        rcases summaryFold_keys (uuidToSession (sessionUuids db ids))
            (summaryRows db ((sessionUuids db ids).map Prod.snd)) [] s hs
          with h | h
        · simp at h
        · obtain ⟨p, _, hps⟩ := h
          rcases uuidToSession_values (sessionUuids db ids) [] p.1 s hps
            with h2 | h2
          · simp [mapGet] at h2
          · exact sessionUuids_fst_mem db ids s h2
  · intro b1 b2 b3
    simp [fetchSessionSummariesAsync]
  · intro lu sm s hrow hmap
    have hsu : (sessionUuids db ids).isEmpty = false := by
      rw [Bool.eq_false_iff]
      intro hc
      rw [List.isEmpty_iff] at hc
      rw [hc] at hmap
      simp [uuidToSession, mapGet] at hmap
    have hids : ids.isEmpty = false := by
      rw [Bool.eq_false_iff]
      intro hc
      rw [List.isEmpty_iff] at hc
      subst hc
      rw [sessionUuids_nil db] at hsu
      simp at hsu
    simp only [batchFetchSummaries, hids, hsu, Bool.false_eq_true,
      if_neg, not_false_iff]
    exact summaryFold_populates _ _ [] s (Or.inr ⟨(lu, sm), hrow, hmap⟩)

/-- Witness for C10 at a concrete catalog: one user event of session s1
and one summary event whose leafUuid matches its last uuid; the key s1
is both within the requested ids and populated. -/
theorem summary_keys_confined_witness :
    ("s1" ∈
        (batchFetchSummaries
          [LogEvent.mk (some "s1") "u1" "user" none none 1,
            LogEvent.mk none "x" "summary" (some "u1") (some "hello") 2]
          ["s1"]).1.map Prod.fst →
      "s1" ∈ ["s1"]) ∧
      (mapGet
        (batchFetchSummaries
          [LogEvent.mk (some "s1") "u1" "user" none none 1,
            LogEvent.mk none "x" "summary" (some "u1") (some "hello") 2]
          ["s1"]).1 "s1").isSome = true :=
  ⟨(summary_keys_confined
      [LogEvent.mk (some "s1") "u1" "user" none none 1,
        LogEvent.mk none "x" "summary" (some "u1") (some "hello") 2]
      ["s1"]).1 "s1",
    (summary_keys_confined
      [LogEvent.mk (some "s1") "u1" "user" none none 1,
        LogEvent.mk none "x" "summary" (some "u1") (some "hello") 2]
      ["s1"]).2.2.2 "u1" "hello" "s1" (by decide) (by decide)⟩


/-! ## Claim C1: stale results are discarded -/

/-- C1: if the currently selected session is B and a late
MessagesLoadedMsg for a different session A arrives (session A's fetch
completed after the user moved to B), the handler detects the mismatch
and discards the result: the visible message state, the overall loading
state, and both the per-session loading flag and the cache entry of B
are left untouched. -/
theorem stale_result_discarded (m : TuiModel) (msg : MessagesLoadedMsg)
    (b : String) (hsel : m.selectedSessionId = some b)
    (hne : msg.sessionID ≠ b) :
    (handleMessagesLoaded m msg).currentMessages = m.currentMessages ∧
      (handleMessagesLoaded m msg).loadingState = m.loadingState ∧
      mapGet (handleMessagesLoaded m msg).loadingMessages b =
        mapGet m.loadingMessages b ∧
      mapGet (handleMessagesLoaded m msg).messageCache b =
        mapGet m.messageCache b := by
  have hsel2 : ¬ m.selectedSessionId = some msg.sessionID := by
    rw [hsel]
    intro hc
    injection hc with hc2
    exact hne hc2.symm
  have hbne : b ≠ msg.sessionID := fun hc => hne hc.symm
  cases herr : msg.error with
  | some e =>
      simp [handleMessagesLoaded, herr, hsel2,
        mapGet_mapSet_ne m.loadingMessages msg.sessionID b false hbne]
  | none =>
      simp [handleMessagesLoaded, herr, hsel2,
        mapGet_mapSet_ne m.loadingMessages msg.sessionID b false hbne,
        mapGet_mapSet_ne m.messageCache msg.sessionID b msg.messages hbne]

/-- Witness for C1: session B is selected and shows its messages; a late
successful result for A leaves the view and the loading flag of B
unchanged. -/
theorem stale_result_discarded_witness :
    (handleMessagesLoaded
        (TuiModel.mk [("B", ["mb"])] [("A", true), ("B", false)]
          LoadingState.idle ["mb"] (some "B") [])
        (MessagesLoadedMsg.mk "A" ["ma"] none)).currentMessages =
      (TuiModel.mk [("B", ["mb"])] [("A", true), ("B", false)]
        LoadingState.idle ["mb"] (some "B") []).currentMessages :=
  (stale_result_discarded
      (TuiModel.mk [("B", ["mb"])] [("A", true), ("B", false)]
        LoadingState.idle ["mb"] (some "B") [])
      (MessagesLoadedMsg.mk "A" ["ma"] none) "B" rfl (by decide)).1

/-! ## Claim C8: cache short-circuit -/

/-- C8: selecting a session whose messages are already cached returns
the cached messages synchronously — the loading state is untouched (in
particular it never leaves Idle when it was Idle), no new request is
created and no fetch command (the path to the Catalog Source) is
issued. -/
theorem cache_short_circuit (m : TuiModel) (sid : String)
    (msgs : List String) (h : mapGet m.messageCache sid = some msgs) :
    selectSessionMessages m sid =
      ({ m with currentMessages := msgs, selectedSessionId := some sid },
        none) ∧
      (selectSessionMessages m sid).1.loadingState = m.loadingState ∧
      (selectSessionMessages m sid).1.activeRequests = m.activeRequests ∧
      (selectSessionMessages m sid).1.loadingMessages =
        m.loadingMessages ∧
      (selectSessionMessages m sid).2 = none ∧
      (selectSessionMessages m sid).1.currentMessages = msgs := by
  simp [selectSessionMessages, h]

/-- Witness for C8 at a concrete model with a pre-populated cache entry
and Idle loading state. -/
theorem cache_short_circuit_witness :
    (selectSessionMessages
        (TuiModel.mk [("cached-session", ["c1", "c2"])] []
          LoadingState.idle [] none ["q"])
        "cached-session").1.loadingState = LoadingState.idle ∧
      (selectSessionMessages
        (TuiModel.mk [("cached-session", ["c1", "c2"])] []
          LoadingState.idle [] none ["q"])
        "cached-session").2 = none :=
  ⟨(cache_short_circuit
      (TuiModel.mk [("cached-session", ["c1", "c2"])] []
        LoadingState.idle [] none ["q"])
      "cached-session" ["c1", "c2"] (by decide)).2.1,
    (cache_short_circuit
      (TuiModel.mk [("cached-session", ["c1", "c2"])] []
        LoadingState.idle [] none ["q"])
      "cached-session" ["c1", "c2"] (by decide)).2.2.2.2.1⟩

end ClaudeResume
